import Mathlib

/-!
Verification of the mcp-server-agenda tool adapter.

Shallow embedding of `src/mcp_server_agenda/server.py`: the note store is a
Python dict modelled as an insertion-ordered association list, tool argument
bags are string-keyed association lists of JSON string/boolean values,
`urllib.parse.quote` is modelled byte-for-byte over the UTF-8 encoding, and
the request handlers are pure functions.  Raised Python exceptions are
modelled as the `Except.error` branch; the behaviour of the OS `open`
facility is an explicit parameter of the dispatcher.
-/

namespace MCPAgenda

/-- Values that can occur in an MCP tool-call argument bag or in the note
store: JSON strings or booleans (the only value types the tool schemas use). -/
inductive AVal where
  | s (v : String)
  | b (v : Bool)
deriving DecidableEq

/-- Python `str(x)` on an argument value (used by f-string interpolation). -/
def pyStr : AVal → String
  | .s v => v
  | .b true => "True"
  | .b false => "False"

/-- Python `str(x).lower()` as used for boolean-typed URL parameters. -/
def pyLower : AVal → String
  | .s v => v.toLower
  | .b true => "true"
  | .b false => "false"

/-- Python truthiness test `not x` applied to a value looked up with
`dict.get` (`none` models an absent key, i.e. `None`). -/
def falsy : Option AVal → Bool
  | none => true
  | some (.s v) => v == ""
  | some (.b bv) => !bv

/-- The in-memory note store `notes: dict[str, str]`: a Python dict
(insertion-ordered, updates happen in place), modelled as an ordered
association list with unique keys. -/
abbrev NoteStore := List (AVal × AVal)

/-- Python `d[k]` / `d.get(k)` lookup on the note store. -/
def dictGet : NoteStore → AVal → Option AVal
  | [], _ => none
  | (k', v') :: rest, k => if k' = k then some v' else dictGet rest k

/-- Python `d[k] = v`: update in place when the key exists, else append. -/
def dictSet : NoteStore → AVal → AVal → NoteStore
  | [], k, v => [(k, v)]
  | (k', v') :: rest, k, v =>
      if k' = k then (k, v) :: rest else (k', v') :: dictSet rest k v

/-- Python `k in d` on the note store. -/
def dictContains (d : NoteStore) (k : AVal) : Bool := (dictGet d k).isSome

/-- A tool-call argument bag (a JSON object): string keys to values. -/
abbrev ArgBag := List (String × AVal)

/-- Python `arguments[k]` / `arguments.get(k)` on an argument bag. -/
def findArg : ArgBag → String → Option AVal
  | [], _ => none
  | (k', v') :: rest, k => if k' = k then some v' else findArg rest k

/-- Python `k in arguments`. -/
def hasArg (a : ArgBag) (k : String) : Bool := (findArg a k).isSome

/-- Upper-case hexadecimal digits, as produced by urllib's `'%%%02X'`. -/
def hexDigits : List Char :=
  ['0','1','2','3','4','5','6','7','8','9','A','B','C','D','E','F']

/-- One upper-case hex digit of a byte. -/
def hexDigit (n : Nat) : Char := hexDigits.getD (n % 16) '0'

/-- Bytes urllib.parse.quote leaves unescaped with the default `safe='/'`:
ASCII alphanumerics, `_`, `.`, `-`, `~`, and `/`. -/
def isSafeByte (b : Nat) : Bool :=
  (65 ≤ b && b ≤ 90) || (97 ≤ b && b ≤ 122) || (48 ≤ b && b ≤ 57) ||
    b == 95 || b == 46 || b == 45 || b == 126 || b == 47

/-- UTF-8 encoding of one character (quote percent-encodes the UTF-8 bytes). -/
def utf8Bytes (c : Char) : List Nat :=
  let n := c.toNat
  if n < 128 then [n]
  else if n < 2048 then [192 + n / 64, 128 + n % 64]
  else if n < 65536 then [224 + n / 4096, 128 + (n / 64) % 64, 128 + n % 64]
  else [240 + n / 262144, 128 + (n / 4096) % 64, 128 + (n / 64) % 64, 128 + n % 64]

/-- Rendering of one byte by urllib.parse.quote: kept literally when safe,
otherwise a `%XX` escape. -/
def quoteByte (b : Nat) : List Char :=
  if isSafeByte b then [Char.ofNat b]
  else ['%', hexDigit (b / 16), hexDigit b]

/-- Model of `urllib.parse.quote(s)` with its default arguments, exactly as
the server calls it. -/
def quote (sv : String) : String := String.mk ((sv.data.flatMap utf8Bytes).flatMap quoteByte)

/-- Python exceptions the server code can raise. -/
inductive PyErr where
  | valueError (msg : String)
  | keyError (key : String)
  | typeError (msg : String)
deriving DecidableEq

/-- Evaluation of `quote(arguments[k])` for a required parameter: KeyError
when the key is absent, TypeError when the value is not a str. -/
def strArg (args : ArgBag) (k : String) : Except PyErr String :=
  match findArg args k with
  | none => .error (.keyError k)
  | some (.s v) => .ok v
  | some (.b _) => .error (.typeError "quote() expected a str")

/-- Translation of `if pk in arguments:
params.append(f"{uk}={quote(arguments[pk])}")`. -/
def appendStrParam (args : ArgBag) (pk uk : String) (ps : List String) :
    Except PyErr (List String) :=
  match findArg args pk with
  | none => .ok ps
  | some (.s v) => .ok (ps ++ [uk ++ "=" ++ quote v])
  | some (.b _) => .error (.typeError "quote() expected a str")

/-- Translation of `if pk in arguments:
params.append(f"{uk}={str(arguments[pk]).lower()}")`. -/
def appendBoolParam (args : ArgBag) (pk uk : String) (ps : List String) : List String :=
  match findArg args pk with
  | none => ps
  | some v => ps ++ [uk ++ "=" ++ pyLower v]

/-- URL construction of the create-agenda-note branch of `handle_call_tool`
(server.py lines 234-267), parameter appends in source order. -/
def buildCreateNoteURL (args : ArgBag) : Except PyErr String := do
  let t ← strArg args "title"
  let x ← strArg args "text"
  let ps0 := ["title=" ++ quote t, "text=" ++ quote x]
  let ps1 ← appendStrParam args "project_title" "project-title" ps0
  let ps2 := appendBoolParam args "on_the_agenda" "on-the-agenda" ps1
  let ps3 ← appendStrParam args "date" "date" ps2
  let ps4 ← appendStrParam args "start_date" "start-date" ps3
  let ps5 ← appendStrParam args "end_date" "end-date" ps4
  let ps6 ← appendStrParam args "template_name" "template-name" ps5
  let ps7 ← appendStrParam args "template_input" "template-input" ps6
  let ps8 := appendBoolParam args "collapsed" "collapsed" ps7
  let ps9 := appendBoolParam args "completed" "completed" ps8
  let ps10 := appendBoolParam args "pinned" "pinned" ps9
  let ps11 := appendBoolParam args "footnote" "footnote" ps10
  let ps12 := appendBoolParam args "select" "select" ps11
  return "agenda://x-callback-url/create-note?" ++ String.intercalate "&" ps12

/-- URL construction of the create-agenda-project branch (lines 290-307).
Note the source appends `sort-order={arguments['sort_order']}` verbatim,
without `quote`. -/
def buildCreateProjectURL (args : ArgBag) : Except PyErr String := do
  let t ← strArg args "title"
  let ps0 := ["title=" ++ quote t]
  let ps1 ← appendStrParam args "category_title" "category-title" ps0
  let ps2 ← appendStrParam args "identifier" "identifier" ps1
  let ps3 := appendBoolParam args "select" "select" ps2
  let ps4 :=
    match findArg args "sort_order" with
    | none => ps3
    | some v => ps3 ++ ["sort-order=" ++ pyStr v]
  return "agenda://x-callback-url/create-project?" ++ String.intercalate "&" ps4

/-- URL construction of the open-agenda-note branch (lines 333-347). -/
def buildOpenNoteURL (args : ArgBag) : Except PyErr String := do
  let ps1 ← appendStrParam args "title" "title" []
  let ps2 ← appendStrParam args "identifier" "identifier" ps1
  let ps3 ← appendStrParam args "project_title" "project-title" ps2
  let ps4 := appendBoolParam args "separate_window" "separate-window" ps3
  return "agenda://x-callback-url/open-note?" ++ String.intercalate "&" ps4

/-- Outcome of the OS `open` facility for one URL: captured stdout on exit
code 0, or the `str()` rendering of the `CalledProcessError` on failure. -/
inductive OSResult where
  | ok (stdout : String)
  | err (errText : String)
deriving DecidableEq

/-- Model of `XCallbackURLHandler.call_url`: returns stdout on success;
on `CalledProcessError` it raises
`RuntimeError(f"Failed to execute x-callback-url: {e}")`.
`Except.error` models the raised exception leaving the method. -/
def call_url (os : OSResult) : Except String String :=
  match os with
  | .ok out => .ok out
  | .err e => .error ("Failed to execute x-callback-url: " ++ e)

/-- A parsed resource URI as the protocol host hands it to the handler. -/
structure URI where
  scheme : String
  host : String
  path : Option String
deriving DecidableEq

/-- Python `name.lstrip("/")`: remove every leading `/` character. -/
def lstripSlash (sv : String) : String := String.mk (sv.data.dropWhile (fun c => c = '/'))

/-- Model of `handle_read_resource` (server.py lines 55-68): checks the
scheme, strips leading slashes from the path, then indexes the note store
(`notes[name]`, which raises KeyError naming the key when absent). -/
def handle_read_resource (uri : URI) (notes : NoteStore) : Except PyErr AVal :=
  if uri.scheme ≠ "note" then
    .error (.valueError ("Unsupported URI scheme: " ++ uri.scheme))
  else
    match uri.path with
    | some p =>
        match dictGet notes (.s (lstripSlash p)) with
        | some v => .ok v
        | none => .error (.keyError (lstripSlash p))
    | none => .error (.valueError "Note not found: None")

/-- One rendered message of a prompt result: role and text. -/
structure PromptMessage where
  role : String
  text : String
deriving DecidableEq

/-- Result of `handle_get_prompt`. -/
structure GetPromptResult where
  description : String
  messages : List PromptMessage
deriving DecidableEq

/-- Lookup in a string-to-string argument dict (`arguments.get(k)`). -/
def findS : List (String × String) → String → Option String
  | [], _ => none
  | (k', v') :: rest, k => if k' = k then some v' else findS rest k

/-- One line of the summarize-notes listing: `f"- {name}: {content}"`. -/
def noteLine (p : AVal × AVal) : String := "- " ++ pyStr p.1 ++ ": " ++ pyStr p.2

/-- Model of `handle_get_prompt` (server.py lines 90-119). -/
def handle_get_prompt (name : String) (arguments : Option (List (String × String)))
    (notes : NoteStore) : Except PyErr GetPromptResult :=
  if name ≠ "summarize-notes" then
    .error (.valueError ("Unknown prompt: " ++ name))
  else
    let style := (findS (arguments.getD []) "style").getD "brief"
    let detail := if style = "detailed" then " Give extensive details." else ""
    let body := "Here are the current notes to summarize:" ++ detail ++ "\n\n" ++
      String.intercalate "\n" (notes.map noteLine)
    .ok ⟨"Summarize the current notes", [⟨"user", body⟩]⟩

/-- Translation of
`arguments.get('title', arguments.get('identifier', 'requested note'))`. -/
def noteDesc (args : ArgBag) : String :=
  match findArg args "title" with
  | some v => pyStr v
  | none =>
    match findArg args "identifier" with
    | some v => pyStr v
    | none => "requested note"

/-- Observable outcome of one `handle_call_tool` request: the returned
text-content list (or the exception raised past the handler), the note store
afterwards, whether a resource-list-changed notification was sent, and the
URL handed to the OS open facility, if any. -/
structure CallOutcome where
  result : Except PyErr (List String)
  notes : NoteStore
  notified : Bool
  invoked : Option String

/-- Model of `handle_call_tool` (server.py lines 198-368).  `os` is the
behaviour of the OS open facility for the at-most-one external invocation
the selected branch makes. -/
def handle_call_tool (name : String) (arguments : Option ArgBag)
    (notes : NoteStore) (os : OSResult) : CallOutcome :=
  if name = "add-note" then
    match arguments with
    | none => ⟨.error (.valueError "Missing arguments"), notes, false, none⟩
    | some args =>
      if args.isEmpty then ⟨.error (.valueError "Missing arguments"), notes, false, none⟩
      else if falsy (findArg args "name") || falsy (findArg args "content") then
        ⟨.error (.valueError "Missing name or content"), notes, false, none⟩
      else
        let nv := (findArg args "name").getD (.s "")
        let cv := (findArg args "content").getD (.s "")
        ⟨.ok ["Added note '" ++ pyStr nv ++ "' with content: " ++ pyStr cv],
          dictSet notes nv cv, true, none⟩
  else if name = "create-agenda-note" then
    match arguments with
    | none => ⟨.error (.valueError "Missing arguments"), notes, false, none⟩
    | some args =>
      if args.isEmpty then ⟨.error (.valueError "Missing arguments"), notes, false, none⟩
      else
        match buildCreateNoteURL args with
        | .error e => ⟨.error e, notes, false, none⟩
        | .ok url =>
          match call_url os with
          | .ok _ =>
            ⟨.ok ["Created note '" ++ pyStr ((findArg args "title").getD (.s "")) ++
                "' in Agenda"], notes, false, some url⟩
          | .error e =>
            ⟨.ok ["Failed to create note in Agenda: " ++ e], notes, false, some url⟩
  else if name = "create-agenda-project" then
    match arguments with
    | none => ⟨.error (.valueError "Missing arguments"), notes, false, none⟩
    | some args =>
      if args.isEmpty then ⟨.error (.valueError "Missing arguments"), notes, false, none⟩
      else
        match buildCreateProjectURL args with
        | .error e => ⟨.error e, notes, false, none⟩
        | .ok url =>
          match call_url os with
          | .ok _ =>
            ⟨.ok ["Created project '" ++ pyStr ((findArg args "title").getD (.s "")) ++
                "' in Agenda"], notes, false, some url⟩
          | .error e =>
            ⟨.ok ["Failed to create project in Agenda: " ++ e], notes, false, some url⟩
  else if name = "open-agenda-note" then
    match arguments with
    | none => ⟨.error (.valueError "Missing arguments"), notes, false, none⟩
    | some args =>
      if args.isEmpty then ⟨.error (.valueError "Missing arguments"), notes, false, none⟩
      else if !(hasArg args "title" || hasArg args "identifier") then
        ⟨.error (.valueError "Either title or identifier must be provided"), notes, false, none⟩
      else
        match buildOpenNoteURL args with
        | .error e => ⟨.error e, notes, false, none⟩
        | .ok url =>
          match call_url os with
          | .ok _ =>
            ⟨.ok ["Opened note '" ++ noteDesc args ++ "' in Agenda"], notes, false, some url⟩
          | .error e =>
            ⟨.ok ["Failed to open note in Agenda: " ++ e], notes, false, some url⟩
  else ⟨.error (.valueError ("Unknown tool: " ++ name)), notes, false, none⟩

/-- Query fragment contributed by an optional string-typed parameter. -/
def strChunk (args : ArgBag) (pk uk : String) : List String :=
  match findArg args pk with
  | some (.s v) => [uk ++ "=" ++ quote v]
  | _ => []

/-- Query fragment contributed by an optional boolean-typed parameter. -/
def boolChunk (args : ArgBag) (pk uk : String) : List String :=
  match findArg args pk with
  | some v => [uk ++ "=" ++ pyLower v]
  | none => []

/-- The value at key `pk`, when present, is a string (so `quote` accepts it). -/
def typedStr (args : ArgBag) (pk : String) : Bool :=
  match findArg args pk with
  | some (.b _) => false
  | _ => true

/-- Note store after a sequence of add-note tool calls, one call per
(name, content) pair, threading the store through the calls. -/
def seqAddNotes (ps : List (String × String)) (st : NoteStore) (os : OSResult) : NoteStore :=
  ps.foldl (fun acc p =>
    (handle_call_tool "add-note"
      (some [("name", AVal.s p.1), ("content", AVal.s p.2)]) acc os).notes) st

/-- Characters with structural meaning inside a URL query string. -/
def reservedQueryChars : List Char := ['&', '=', '?', '#', '+', ' ']

/-- Characters that may occur in the output of `quote`: bytes it keeps
literally, or the escape marker `%` (hex digits are safe bytes already). -/
def allowedChar (c : Char) : Bool := isSafeByte c.toNat || c == '%'

instance {ε α : Type} [DecidableEq ε] [DecidableEq α] : DecidableEq (Except ε α) := fun a b =>
  match a, b with
  | .ok x, .ok y => decidable_of_iff (x = y) (by simp)
  | .ok _, .error _ => .isFalse (by simp)
  | .error _, .ok _ => .isFalse (by simp)
  | .error d, .error e => decidable_of_iff (d = e) (by simp)

theorem isSafeByte_lt {b : Nat} (h : isSafeByte b = true) : b < 127 := by
  unfold isSafeByte at h
  simp only [Bool.or_eq_true, Bool.and_eq_true, decide_eq_true_eq, beq_iff_eq] at h
  omega

theorem safe_allowed : ∀ b : Nat, b < 127 → isSafeByte b = true →
    allowedChar (Char.ofNat b) = true := by decide

theorem hexDigit_allowed (n : Nat) : allowedChar (hexDigit n) = true := by
  have hlt : n % 16 < 16 := Nat.mod_lt n (by decide)
  have hall : ∀ m : Nat, m < 16 → allowedChar (hexDigits.getD m '0') = true := by decide
  exact hall (n % 16) hlt

theorem quoteByte_allowed {b : Nat} {c : Char} (h : c ∈ quoteByte b) :
    allowedChar c = true := by
  unfold quoteByte at h
  by_cases hs : isSafeByte b = true
  · rw [if_pos hs] at h
    simp only [List.mem_singleton] at h
    subst h
    exact safe_allowed b (isSafeByte_lt hs) hs
  · rw [if_neg hs] at h
    simp only [List.mem_cons, List.not_mem_nil, or_false] at h
    rcases h with h | h | h
    · subst h; decide
    · subst h; exact hexDigit_allowed _
    · subst h; exact hexDigit_allowed _

theorem quote_allowed {sv : String} {c : Char} (h : c ∈ (quote sv).data) :
    allowedChar c = true := by
  unfold quote at h
  obtain ⟨b, _, hb⟩ := List.mem_flatMap.mp h
  exact quoteByte_allowed hb

theorem allowed_not_reserved {c : Char} (h : allowedChar c = true) :
    reservedQueryChars.contains c = false := by
  have hres : ∀ x ∈ reservedQueryChars, allowedChar x = false := by decide
  cases hb : reservedQueryChars.contains c with
  | false => rfl
  | true =>
    have hmem : c ∈ reservedQueryChars := List.mem_of_elem_eq_true hb
    rw [hres c hmem] at h
    exact absurd h (by simp)

/-- C3: counterexample.  When the OS open facility reports a failure, the
External Invoker `call_url` does not return a `succeeded=false` result: it
raises a RuntimeError (`Except.error` models the exception leaving the
method), so "never raises past the Invoker boundary" is false. -/
theorem spec_C3_cex :
    call_url (OSResult.err "Command open returned non-zero exit status 1.") =
      Except.error
        ("Failed to execute x-callback-url: Command open returned non-zero exit status 1.") ∧
    (call_url (OSResult.err "Command open returned non-zero exit status 1.")).isOk = false :=
  ⟨rfl, rfl⟩

/-- C3 (amended): on an OS-facility failure `call_url` raises (does not
return) a RuntimeError whose message is "Failed to execute x-callback-url: "
followed by the facility's own error text; on success it returns the
facility's stdout.  The capture into a returned text response happens one
level up, in `handle_call_tool`. -/
theorem spec_C3 (e out : String) :
    call_url (OSResult.err e) =
      Except.error ("Failed to execute x-callback-url: " ++ e) ∧
    call_url (OSResult.ok out) = Except.ok out :=
  ⟨rfl, rfl⟩

/-- C7: counterexample.  The create-agenda-project builder concatenates the
`sort_order` value verbatim (no `quote`), so a string value containing
reserved query characters reaches the URL unescaped: the produced URL is not
the percent-encoded one the claim requires. -/
theorem spec_C7_cex :
    buildCreateProjectURL [("title", AVal.s "T"), ("sort_order", AVal.s "a&b=c")] =
      Except.ok "agenda://x-callback-url/create-project?title=T&sort-order=a&b=c" ∧
    quote "a&b=c" = "a%26b%3Dc" ∧
    ('&' ∈ "a&b=c".data ∧ reservedQueryChars.contains '&' = true) ∧
    "agenda://x-callback-url/create-project?title=T&sort-order=a&b=c" ≠
      "agenda://x-callback-url/create-project?title=T&sort-order=a%26b%3Dc" := by
  refine ⟨by decide, by decide, by decide, by decide⟩

/-- C7 (amended): every parameter value the builders pass through `quote`
(every string-valued parameter except create-agenda-project's `sort_order`,
which is concatenated verbatim) is percent-encoded, and its rendering
contains no reserved query character; boolean-valued parameters are rendered
as the unencoded lowercase literal words "true"/"false".  For `sort_order`,
the two values of the schema's enum contain no reserved query character, so
a schema-conforming call still yields a clean URL. -/
theorem spec_C7 :
    (∀ sv : String, ∀ c ∈ (quote sv).data, reservedQueryChars.contains c = false) ∧
    (∀ bv : Bool, pyLower (AVal.b bv) = if bv then "true" else "false") ∧
    (∀ c ∈ "newest-first".data, reservedQueryChars.contains c = false) ∧
    (∀ c ∈ "oldest-first".data, reservedQueryChars.contains c = false) := by
  refine ⟨?_, ?_, ?_, ?_⟩
  · intro sv c h
    exact allowed_not_reserved (quote_allowed h)
  · intro bv
    cases bv <;> rfl
  · decide
  · decide

/-- Witness for C7 at a concrete input: the percent sign that `quote`
introduces while escaping "a&b" is itself unreserved, and booleans render as
the literal word. -/
theorem spec_C7_witness :
    reservedQueryChars.contains '%' = false ∧ pyLower (AVal.b true) = "true" :=
  ⟨spec_C7.1 "a&b" '%' (by decide), by simpa using spec_C7.2.1 true⟩

/-- C4: read-resource error handling.  A scheme other than "note" fails with
the ValidationError (Python ValueError) naming the offending scheme; with
scheme "note", a name (the path with leading slashes stripped) absent from
the store fails with the NotFound-class error (Python KeyError) carrying the
offending name; a present name returns the stored content unchanged. -/
theorem spec_C4 (uri : URI) (notes : NoteStore) :
    (uri.scheme ≠ "note" →
      handle_read_resource uri notes =
        .error (.valueError ("Unsupported URI scheme: " ++ uri.scheme))) ∧
    (∀ p, uri.scheme = "note" → uri.path = some p →
      (dictGet notes (.s (lstripSlash p)) = none →
        handle_read_resource uri notes = .error (.keyError (lstripSlash p))) ∧
      (∀ v, dictGet notes (.s (lstripSlash p)) = some v →
        handle_read_resource uri notes = .ok v)) := by
  obtain ⟨sc, ho, pa⟩ := uri
  refine ⟨fun hs => ?_, fun p hs hp => ⟨fun hn => ?_, fun v hv => ?_⟩⟩
  · simp only [handle_read_resource, if_pos hs]
  · simp only at hs hp
    subst hs
    subst hp
    simp only [handle_read_resource]
    rw [if_neg (show ¬("note" ≠ "note") from by decide), hn]
  · simp only at hs hp
    subst hs
    subst hp
    simp only [handle_read_resource]
    rw [if_neg (show ¬("note" ≠ "note") from by decide), hv]

/-- Witness for C4 on the spec's own examples: wrong scheme, missing name,
present name. -/
theorem spec_C4_witness :
    handle_read_resource ⟨"other", "x", some "/y"⟩ [] =
      .error (.valueError "Unsupported URI scheme: other") ∧
    handle_read_resource ⟨"note", "internal", some "/missing"⟩
        [(AVal.s "foo", AVal.s "bar")] = .error (.keyError "missing") ∧
    handle_read_resource ⟨"note", "internal", some "/foo"⟩
        [(AVal.s "foo", AVal.s "bar")] = .ok (AVal.s "bar") := by
  refine ⟨(spec_C4 _ _).1 (by decide), ?_, ?_⟩
  · have h := ((spec_C4 ⟨"note", "internal", some "/missing"⟩
      [(AVal.s "foo", AVal.s "bar")]).2 "/missing" rfl rfl).1 (by decide)
    rw [show lstripSlash "/missing" = "missing" from by decide] at h
    exact h
  · exact ((spec_C4 ⟨"note", "internal", some "/foo"⟩
      [(AVal.s "foo", AVal.s "bar")]).2 "/foo" rfl rfl).2 _ (by decide)

/-- C10: counterexample.  The claim quantifies over every note name present
in the store, but for a name that itself begins with "/" the lookup key
(path with ALL leading slashes stripped) differs from the name: with note
"/x" stored, the URI with path "//x" (that is, "/" followed by the name)
raises KeyError "x" instead of returning the content. -/
theorem spec_C10_cex :
    dictGet [(AVal.s "/x", AVal.s "v")] (AVal.s "/x") = some (AVal.s "v") ∧
    handle_read_resource ⟨"note", "internal", some "//x"⟩
        [(AVal.s "/x", AVal.s "v")] = .error (.keyError "x") ∧
    handle_read_resource ⟨"note", "internal", some "//x"⟩
        [(AVal.s "/x", AVal.s "v")] ≠ .ok (AVal.s "v") := by
  refine ⟨by decide, by decide, by decide⟩

theorem lstripSlash_slash_append {n : String} (h : n.data.head? ≠ some '/') :
    lstripSlash ("/" ++ n) = n := by
  have hdw : n.data.dropWhile (fun c => c = '/') = n.data := by
    cases hd : n.data with
    | nil => rfl
    | cons c rest =>
      have hc : c ≠ '/' := by
        intro hcc
        rw [hd, hcc] at h
        exact h rfl
      rw [List.dropWhile_cons, if_neg (by simpa using hc)]
  unfold lstripSlash
  rw [String.data_append]
  show String.mk (List.dropWhile _ ('/' :: n.data)) = n
  rw [List.dropWhile_cons, if_pos (by decide), hdw]

/-- C10 (amended): read-resource never inspects the URI host segment — for
every host string the looked-up key is exactly the URI path with all leading
"/" characters stripped, and the result is determined by the store at that
key; consequently, for every note name that does not itself begin with "/",
a URI with scheme "note", any host, and path "/" followed by the name
returns the stored content.  (Names beginning with "/" are the
counterexample and are excluded.) -/
theorem spec_C10 (h n : String) (notes : NoteStore) :
    (∀ p, handle_read_resource ⟨"note", h, some p⟩ notes =
      (match dictGet notes (.s (lstripSlash p)) with
       | some v => Except.ok v
       | none => Except.error (.keyError (lstripSlash p)))) ∧
    (n.data.head? ≠ some '/' → ∀ v, dictGet notes (AVal.s n) = some v →
      handle_read_resource ⟨"note", h, some ("/" ++ n)⟩ notes = .ok v) := by
  constructor
  · intro p
    simp only [handle_read_resource]
    rw [if_neg (show ¬("note" ≠ "note") from by decide)]
  · intro hn v hv
    simp only [handle_read_resource, lstripSlash_slash_append hn]
    rw [if_neg (show ¬("note" ≠ "note") from by decide), hv]

/-- Witness for C10 at a concrete input: host "anyhost" is ignored and the
note named "foo" is served for path "/foo". -/
theorem spec_C10_witness :
    handle_read_resource ⟨"note", "anyhost", some ("/" ++ "foo")⟩
        [(AVal.s "foo", AVal.s "bar")] = .ok (AVal.s "bar") :=
  (spec_C10 "anyhost" "foo" [(AVal.s "foo", AVal.s "bar")]).2 (by decide) _ (by decide)

/-- C8: get-prompt fails for every name other than "summarize-notes"; for
"summarize-notes" it returns one user-role message whose text is the header
line, then the suffix " Give extensive details." exactly when the style
argument is "detailed" (default "brief"), then a blank line and one line
"- name: content" per stored note, newline-joined, in store order. -/
theorem spec_C8 (args : Option (List (String × String))) (notes : NoteStore) :
    (∀ nm, nm ≠ "summarize-notes" →
      handle_get_prompt nm args notes =
        .error (.valueError ("Unknown prompt: " ++ nm))) ∧
    handle_get_prompt "summarize-notes" args notes =
      .ok ⟨"Summarize the current notes",
        [⟨"user",
          "Here are the current notes to summarize:" ++
            (if (findS (args.getD []) "style").getD "brief" = "detailed"
             then " Give extensive details." else "") ++
          "\n\n" ++ String.intercalate "\n" (notes.map noteLine)⟩]⟩ := by
  constructor
  · intro nm hnm
    simp only [handle_get_prompt, if_pos hnm]
  · simp only [handle_get_prompt]
    rw [if_neg (show ¬("summarize-notes" ≠ "summarize-notes") from by decide)]

/-- Witness for C8: unknown prompt name fails; with style "detailed" the
suffix follows the header, and without a style argument it is absent. -/
theorem spec_C8_witness :
    handle_get_prompt "other" none [] =
      .error (.valueError "Unknown prompt: other") ∧
    handle_get_prompt "summarize-notes" (some [("style", "detailed")])
        [(AVal.s "a", AVal.s "1")] =
      .ok ⟨"Summarize the current notes",
        [⟨"user", "Here are the current notes to summarize: Give extensive details.\n\n- a: 1"⟩]⟩ ∧
    handle_get_prompt "summarize-notes" none [(AVal.s "a", AVal.s "1")] =
      .ok ⟨"Summarize the current notes",
        [⟨"user", "Here are the current notes to summarize:\n\n- a: 1"⟩]⟩ :=
  ⟨(spec_C8 none []).1 "other" (by decide),
   ((spec_C8 (some [("style", "detailed")]) [(AVal.s "a", AVal.s "1")]).2).trans (by decide),
   ((spec_C8 none [(AVal.s "a", AVal.s "1")]).2).trans (by decide)⟩

/-- C6: an open-agenda-note call whose argument bag holds neither "title"
nor "identifier" fails with a ValidationError (ValueError): the note store
is untouched, no notification is sent, and no URL is handed to the OS
facility (`invoked = none`) — the check precedes URL construction and
invocation in the source. -/
theorem spec_C6 (args : ArgBag) (notes : NoteStore) (os : OSResult)
    (ht : hasArg args "title" = false) (hi : hasArg args "identifier" = false) :
    ∃ m, handle_call_tool "open-agenda-note" (some args) notes os =
      ⟨Except.error (.valueError m), notes, false, none⟩ := by
  by_cases he : args.isEmpty
  · exact ⟨"Missing arguments", by simp [handle_call_tool, he]⟩
  · exact ⟨"Either title or identifier must be provided",
      by simp [handle_call_tool, he, ht, hi]⟩

/-- Witness for C6 at a concrete input: a bag with only project_title. -/
theorem spec_C6_witness :
    ∃ m, handle_call_tool "open-agenda-note" (some [("project_title", AVal.s "p")])
        [] (OSResult.ok "") = ⟨Except.error (.valueError m), [], false, none⟩ :=
  spec_C6 [("project_title", AVal.s "p")] [] (OSResult.ok "") (by decide) (by decide)


/-- Bind on a successful Except computation. -/
theorem okBind {α β : Type} (a : α) (f : α → Except PyErr β) :
    (Except.ok a >>= f) = f a := rfl

/-- Pure on Except is ok. -/
theorem pureE {α : Type} (a : α) : (pure a : Except PyErr α) = Except.ok a := rfl

/-- An optional string parameter append extends the list by its chunk. -/
theorem appendStr_eq (args : ArgBag) (pk uk : String) (ps : List String)
    (h : typedStr args pk = true) :
    appendStrParam args pk uk ps = .ok (ps ++ strChunk args pk uk) := by
  have h' := h
  unfold typedStr at h'
  unfold appendStrParam strChunk
  cases hf : findArg args pk with
  | none => simp
  | some v =>
    cases v with
    | s sv => rfl
    | b bv => rw [hf] at h'; simp at h'

/-- An optional boolean parameter append extends the list by its chunk. -/
theorem appendBool_eq (args : ArgBag) (pk uk : String) (ps : List String) :
    appendBoolParam args pk uk ps = ps ++ boolChunk args pk uk := by
  unfold appendBoolParam boolChunk
  cases hf : findArg args pk with
  | none => simp
  | some v => rfl

/-- Closed form of the create-project URL for a well-typed argument bag. -/
theorem buildCreateProjectURL_eq (args : ArgBag) (t : String)
    (ht : findArg args "title" = some (AVal.s t))
    (hc : typedStr args "category_title" = true)
    (hi : typedStr args "identifier" = true) :
    buildCreateProjectURL args = .ok ("agenda://x-callback-url/create-project?" ++
      String.intercalate "&"
        (["title=" ++ quote t] ++
         strChunk args "category_title" "category-title" ++
         strChunk args "identifier" "identifier" ++
         boolChunk args "select" "select" ++
         (match findArg args "sort_order" with
          | none => []
          | some v => ["sort-order=" ++ pyStr v]))) := by
  have et : strArg args "title" = Except.ok t := by unfold strArg; rw [ht]
  unfold buildCreateProjectURL
  rw [et]
  simp only [okBind]
  rw [appendStr_eq args "category_title" "category-title" _ hc]
  simp only [okBind]
  rw [appendStr_eq args "identifier" "identifier" _ hi]
  simp only [okBind]
  rw [appendBool_eq args "select" "select"]
  cases hs : findArg args "sort_order" with
  | none => simp [pureE, List.append_assoc]
  | some v => simp [pureE, List.append_assoc]


/-- C5: for every well-formed create-agenda-project call (title present as a
string, optional string fields string-typed) on which the External Invoker
reports failure, call-tool returns (does not raise: `result` is `ok`) one
text block "Failed to create project in Agenda: " followed by the raised
error's text, which itself ends in the facility's own error text `e`; the
store is untouched and no notification is sent. -/
theorem spec_C5 (args : ArgBag) (t e : String) (notes : NoteStore)
    (ht : findArg args "title" = some (AVal.s t))
    (hc : typedStr args "category_title" = true)
    (hi : typedStr args "identifier" = true) :
    ∃ url, handle_call_tool "create-agenda-project" (some args) notes (OSResult.err e) =
      ⟨Except.ok ["Failed to create project in Agenda: " ++
          ("Failed to execute x-callback-url: " ++ e)], notes, false, some url⟩ := by
  have hb := buildCreateProjectURL_eq args t ht hc hi
  have hne : args.isEmpty = false := by
    cases args with
    | nil => exact absurd ht (by simp [findArg])
    | cons hd tl => rfl
  refine ⟨"agenda://x-callback-url/create-project?" ++
    String.intercalate "&"
      (["title=" ++ quote t] ++ strChunk args "category_title" "category-title" ++
       strChunk args "identifier" "identifier" ++ boolChunk args "select" "select" ++
       (match findArg args "sort_order" with
        | none => []
        | some v => ["sort-order=" ++ pyStr v])), ?_⟩
  simp [handle_call_tool, hne, hb, call_url]

/-- Witness for C5 at a concrete input. -/
theorem spec_C5_witness :
    ∃ url, handle_call_tool "create-agenda-project" (some [("title", AVal.s "P")])
        [] (OSResult.err "boom") =
      ⟨Except.ok ["Failed to create project in Agenda: " ++
          ("Failed to execute x-callback-url: " ++ "boom")], [], false, some url⟩ :=
  spec_C5 [("title", AVal.s "P")] "P" "boom" [] (by decide) (by decide) (by decide)

/-- C1: the create-agenda-note URL builder.  For every argument bag whose
required title/text are strings and whose optional string-typed fields are
strings when present, the produced URL is the base followed by "?" and the
"&"-joined query that starts with title then text and continues with the
optional parameters in exactly the order project-title, on-the-agenda, date,
start-date, end-date, template-name, template-input, collapsed, completed,
pinned, footnote, select; an optional parameter's chunk is nonempty exactly
when its key is present in the bag.  Instantiated at
title="A B", text="C" this gives exactly
"agenda://x-callback-url/create-note?title=A%20B&text=C" (see the witness). -/
theorem spec_C1 (args : ArgBag) :
    (∀ t x, findArg args "title" = some (AVal.s t) →
      findArg args "text" = some (AVal.s x) →
      typedStr args "project_title" = true →
      typedStr args "date" = true →
      typedStr args "start_date" = true →
      typedStr args "end_date" = true →
      typedStr args "template_name" = true →
      typedStr args "template_input" = true →
      buildCreateNoteURL args = .ok ("agenda://x-callback-url/create-note?" ++
        String.intercalate "&"
          (["title=" ++ quote t, "text=" ++ quote x] ++
           strChunk args "project_title" "project-title" ++
           boolChunk args "on_the_agenda" "on-the-agenda" ++
           strChunk args "date" "date" ++
           strChunk args "start_date" "start-date" ++
           strChunk args "end_date" "end-date" ++
           strChunk args "template_name" "template-name" ++
           strChunk args "template_input" "template-input" ++
           boolChunk args "collapsed" "collapsed" ++
           boolChunk args "completed" "completed" ++
           boolChunk args "pinned" "pinned" ++
           boolChunk args "footnote" "footnote" ++
           boolChunk args "select" "select"))) ∧
    (∀ pk uk, typedStr args pk = true →
      (strChunk args pk uk ≠ [] ↔ hasArg args pk = true)) ∧
    (∀ pk uk, boolChunk args pk uk ≠ [] ↔ hasArg args pk = true) := by
  refine ⟨?_, ?_, ?_⟩
  · intro t x ht hx h1 h2 h3 h4 h5 h6
    have et : strArg args "title" = Except.ok t := by unfold strArg; rw [ht]
    have ex : strArg args "text" = Except.ok x := by unfold strArg; rw [hx]
    unfold buildCreateNoteURL
    rw [et]
    simp only [okBind]
    rw [ex]
    simp only [okBind]
    rw [appendStr_eq args "project_title" "project-title" _ h1]
    simp only [okBind]
    rw [appendBool_eq args "on_the_agenda" "on-the-agenda"]
    rw [appendStr_eq args "date" "date" _ h2]
    simp only [okBind]
    rw [appendStr_eq args "start_date" "start-date" _ h3]
    simp only [okBind]
    rw [appendStr_eq args "end_date" "end-date" _ h4]
    simp only [okBind]
    rw [appendStr_eq args "template_name" "template-name" _ h5]
    simp only [okBind]
    rw [appendStr_eq args "template_input" "template-input" _ h6]
    simp only [okBind]
    rw [appendBool_eq args "collapsed" "collapsed",
      appendBool_eq args "completed" "completed",
      appendBool_eq args "pinned" "pinned",
      appendBool_eq args "footnote" "footnote",
      appendBool_eq args "select" "select"]
    simp [pureE, List.append_assoc]
  · intro pk uk hty
    have hty' := hty
    unfold typedStr at hty'
    unfold strChunk
    cases hf : findArg args pk with
    | none => simp [hasArg, hf]
    | some v =>
      cases v with
      | s sv => simp [hasArg, hf]
      | b bv => rw [hf] at hty'; simp at hty'
  · intro pk uk
    unfold boolChunk
    cases hf : findArg args pk with
    | none => simp [hasArg, hf]
    | some v => simp [hasArg, hf]

/-- Witness for C1: the spec's own example bag produces exactly the claimed
URL, and a bag with optional fields orders and renders them as claimed. -/
theorem spec_C1_witness :
    buildCreateNoteURL [("title", AVal.s "A B"), ("text", AVal.s "C")] =
      .ok "agenda://x-callback-url/create-note?title=A%20B&text=C" ∧
    buildCreateNoteURL [("title", AVal.s "A B"), ("text", AVal.s "C"),
        ("pinned", AVal.b true), ("date", AVal.s "2024-01-02")] =
      .ok "agenda://x-callback-url/create-note?title=A%20B&text=C&date=2024-01-02&pinned=true" :=
  ⟨((spec_C1 _).1 "A B" "C" (by decide) (by decide) (by decide) (by decide)
      (by decide) (by decide) (by decide) (by decide)).trans (by decide),
   ((spec_C1 _).1 "A B" "C" (by decide) (by decide) (by decide) (by decide)
      (by decide) (by decide) (by decide) (by decide)).trans (by decide)⟩


/-- Lookup after a dict update: the new value at the updated key, unchanged
elsewhere. -/
theorem dictGet_dictSet (d : NoteStore) (k v k' : AVal) :
    dictGet (dictSet d k v) k' = if k' = k then some v else dictGet d k' := by
  induction d with
  | nil =>
    by_cases h : k' = k
    · subst h; simp [dictSet, dictGet]
    · simp [dictSet, dictGet, h, Ne.symm h]
  | cons hd tl ih =>
    obtain ⟨hk, hv⟩ := hd
    by_cases h1 : hk = k
    · subst h1
      by_cases h2 : k' = hk
      · subst h2; simp [dictSet, dictGet]
      · simp [dictSet, dictGet, h2, Ne.symm h2]
    · by_cases h2 : hk = k'
      · subst h2
        simp [dictSet, dictGet, h1, Ne.symm h1]
      · simp [dictSet, dictGet, h1, h2, ih]

/-- Membership after a dict update. -/
theorem dictContains_dictSet (d : NoteStore) (k v k' : AVal) :
    dictContains (dictSet d k v) k' = if k' = k then true else dictContains d k' := by
  unfold dictContains
  rw [dictGet_dictSet]
  by_cases h : k' = k <;> simp [h]

/-- A dict update grows the store exactly when the key was absent. -/
theorem length_dictSet (d : NoteStore) (k v : AVal) :
    (dictSet d k v).length = if dictContains d k then d.length else d.length + 1 := by
  induction d with
  | nil => simp [dictSet, dictContains, dictGet]
  | cons hd tl ih =>
    obtain ⟨hk, hv⟩ := hd
    by_cases h : hk = k
    · subst h; simp [dictSet, dictContains, dictGet]
    · simp [dictSet, dictContains, dictGet, h, ih]
      split <;> omega

/-- The add-note branch on a bag with nonempty string name and content:
confirmation text, upsert, notification, no external invocation. -/
theorem addNote_ok (st : NoteStore) (os : OSResult) (n c : String)
    (hn : n ≠ "") (hc : c ≠ "") :
    handle_call_tool "add-note"
        (some [("name", AVal.s n), ("content", AVal.s c)]) st os =
      ⟨Except.ok ["Added note '" ++ n ++ "' with content: " ++ c],
        dictSet st (AVal.s n) (AVal.s c), true, none⟩ := by
  simp [handle_call_tool, findArg, falsy, pyStr, hn, hc]

/-- Effect of a sequence of successful add-note calls with fresh, pairwise
distinct, nonempty names on an arbitrary starting store. -/
theorem seqAddNotes_spec (os : OSResult) :
    ∀ (ps : List (String × String)) (st : NoteStore),
      (∀ p ∈ ps, p.1 ≠ "" ∧ p.2 ≠ "") →
      (ps.map Prod.fst).Nodup →
      (∀ p ∈ ps, dictContains st (AVal.s p.1) = false) →
      (seqAddNotes ps st os).length = st.length + ps.length ∧
      (∀ p ∈ ps, dictGet (seqAddNotes ps st os) (AVal.s p.1) = some (AVal.s p.2)) ∧
      (∀ k, (∀ p ∈ ps, k ≠ AVal.s p.1) →
        dictGet (seqAddNotes ps st os) k = dictGet st k) := by
  intro ps
  induction ps with
  | nil =>
    intro st _ _ _
    exact ⟨rfl, by simp, fun k _ => rfl⟩
  | cons hd tl ih =>
    intro st hne hnd hfresh
    obtain ⟨n, c⟩ := hd
    have hn : n ≠ "" := (hne (n, c) (by simp)).1
    have hc : c ≠ "" := (hne (n, c) (by simp)).2
    have hstep : seqAddNotes ((n, c) :: tl) st os =
        seqAddNotes tl (dictSet st (AVal.s n) (AVal.s c)) os := by
      simp [seqAddNotes, addNote_ok st os n c hn hc]
    have hnmem : n ∉ tl.map Prod.fst := (List.nodup_cons.mp hnd).1
    have hnd' : (tl.map Prod.fst).Nodup := (List.nodup_cons.mp hnd).2
    have hfresh' : ∀ p ∈ tl,
        dictContains (dictSet st (AVal.s n) (AVal.s c)) (AVal.s p.1) = false := by
      intro p hp
      rw [dictContains_dictSet]
      have hne2 : AVal.s p.1 ≠ AVal.s n := by
        intro he
        have hpn : p.1 = n := by injection he
        exact hnmem (hpn ▸ List.mem_map_of_mem Prod.fst hp)
      rw [if_neg hne2]
      exact hfresh p (List.mem_cons_of_mem _ hp)
    obtain ⟨ihl, ihget, ihpres⟩ :=
      ih (dictSet st (AVal.s n) (AVal.s c)) (fun p hp => hne p (by simp [hp])) hnd' hfresh'
    have h0 : dictContains st (AVal.s n) = false := hfresh (n, c) (by simp)
    refine ⟨?_, ?_, ?_⟩
    · rw [hstep, ihl, length_dictSet, h0]
      simp
      omega
    · intro p hp
      rcases List.mem_cons.mp hp with he | hmem
      · rw [hstep]
        have hnk : ∀ q ∈ tl, AVal.s n ≠ AVal.s q.1 := by
          intro q hq he2
          have hqn : n = q.1 := by injection he2
          exact hnmem (by rw [hqn]; exact List.mem_map_of_mem Prod.fst hq)
        rw [he]
        rw [show ((n, c) : String × String).1 = n from rfl,
          show ((n, c) : String × String).2 = c from rfl] at *
        rw [ihpres (AVal.s n) hnk, dictGet_dictSet]
        simp
      · rw [hstep]
        exact ihget p hmem
    · intro k hk
      rw [hstep, ihpres k (fun p hp => hk p (List.mem_cons_of_mem _ hp)),
        dictGet_dictSet, if_neg (hk (n, c) (by simp))]

/-- C2: starting from an empty store, N successful add-note calls with
pairwise distinct nonempty names leave exactly N entries, each name mapping
to its given content; re-adding an existing name succeeds, replaces the
content, and leaves the entry count unchanged. -/
theorem spec_C2 (os : OSResult) :
    (∀ ps : List (String × String),
      (∀ p ∈ ps, p.1 ≠ "" ∧ p.2 ≠ "") →
      (ps.map Prod.fst).Nodup →
      (seqAddNotes ps [] os).length = ps.length ∧
      ∀ p ∈ ps, dictGet (seqAddNotes ps [] os) (AVal.s p.1) = some (AVal.s p.2)) ∧
    (∀ (st : NoteStore) (n c : String), n ≠ "" → c ≠ "" →
      dictContains st (AVal.s n) = true →
      (handle_call_tool "add-note"
          (some [("name", AVal.s n), ("content", AVal.s c)]) st os).notes.length =
        st.length ∧
      dictGet (handle_call_tool "add-note"
          (some [("name", AVal.s n), ("content", AVal.s c)]) st os).notes
        (AVal.s n) = some (AVal.s c) ∧
      (handle_call_tool "add-note"
          (some [("name", AVal.s n), ("content", AVal.s c)]) st os).result.isOk = true) := by
  constructor
  · intro ps hne hnd
    obtain ⟨hl, hg, _⟩ := seqAddNotes_spec os ps [] hne hnd (fun p hp => rfl)
    exact ⟨by simpa using hl, hg⟩
  · intro st n c hn hc hmem
    rw [addNote_ok st os n c hn hc]
    refine ⟨?_, ?_, rfl⟩
    · simp [length_dictSet, hmem]
    · rw [dictGet_dictSet]
      simp

/-- Witness for C2 at concrete inputs: two distinct adds give two entries;
re-adding "a" over a one-entry store keeps the count at one. -/
theorem spec_C2_witness :
    (seqAddNotes [("a", "1"), ("b", "2")] [] (OSResult.ok "")).length = 2 ∧
    dictGet (seqAddNotes [("a", "1"), ("b", "2")] [] (OSResult.ok ""))
      (AVal.s "a") = some (AVal.s "1") ∧
    (handle_call_tool "add-note"
        (some [("name", AVal.s "a"), ("content", AVal.s "9")])
        [(AVal.s "a", AVal.s "1")] (OSResult.ok "")).notes.length = 1 := by
  have h1 := (spec_C2 (OSResult.ok "")).1 [("a", "1"), ("b", "2")] (by decide) (by decide)
  have h2 := (spec_C2 (OSResult.ok "")).2 [(AVal.s "a", AVal.s "1")] "a" "9"
    (by decide) (by decide) (by decide)
  exact ⟨h1.1, h1.2 ("a", "1") (by simp), h2.1⟩

/-- C9: an add-note call that fails validation (absent or empty bag, falsy
name, or falsy content) raises a ValueError, leaves the note store exactly
as it was, and sends no resource-list-changed notification. -/
theorem spec_C9 (st : NoteStore) (os : OSResult) :
    ((handle_call_tool "add-note" none st os).notes = st ∧
     (handle_call_tool "add-note" none st os).notified = false ∧
     (handle_call_tool "add-note" none st os).result =
       .error (.valueError "Missing arguments")) ∧
    (∀ args : ArgBag,
      args = [] ∨ falsy (findArg args "name") = true ∨
        falsy (findArg args "content") = true →
      (handle_call_tool "add-note" (some args) st os).notes = st ∧
      (handle_call_tool "add-note" (some args) st os).notified = false ∧
      ∃ m, (handle_call_tool "add-note" (some args) st os).result =
        .error (.valueError m)) := by
  constructor
  · refine ⟨?_, ?_, ?_⟩ <;> simp [handle_call_tool]
  · intro args h
    by_cases he : args.isEmpty = true
    · refine ⟨?_, ?_, ⟨"Missing arguments", ?_⟩⟩ <;> simp [handle_call_tool, he]
    · have hf : falsy (findArg args "name") = true ∨
          falsy (findArg args "content") = true := by
        rcases h with h | h | h
        · exact absurd (show args.isEmpty = true by rw [h]; rfl) he
        · exact Or.inl h
        · exact Or.inr h
      have hcond : (falsy (findArg args "name") || falsy (findArg args "content")) = true := by
        rcases hf with h | h <;> simp [h]
      refine ⟨?_, ?_, ⟨"Missing name or content", ?_⟩⟩ <;>
        simp [handle_call_tool, he, hcond]

/-- Witness for C9 at a concrete input: an empty-string name against a
one-entry store leaves the store and notification state unchanged. -/
theorem spec_C9_witness :
    (handle_call_tool "add-note" (some [("name", AVal.s "")])
        [(AVal.s "a", AVal.s "1")] (OSResult.ok "")).notes =
      [(AVal.s "a", AVal.s "1")] ∧
    (handle_call_tool "add-note" (some [("name", AVal.s "")])
        [(AVal.s "a", AVal.s "1")] (OSResult.ok "")).notified = false ∧
    ∃ m, (handle_call_tool "add-note" (some [("name", AVal.s "")])
        [(AVal.s "a", AVal.s "1")] (OSResult.ok "")).result =
      .error (.valueError m) :=
  (spec_C9 [(AVal.s "a", AVal.s "1")] (OSResult.ok "")).2
    [("name", AVal.s "")] (Or.inr (Or.inl (by decide)))

end MCPAgenda
